import Mathlib

/-!
Verification of the AutoDraft collaborative document synchronization core.

Shallow embedding of:
- the Redux document slice (sections record, deadlines, updateSection and
  updateDeadline reducers);
- the client offline queue (Dexie table offlineEdits, addToQueue and
  syncOfflineEdits from useOfflineQueue.ts);
- the server-sent-event message handler (useEventSource.ts);
- the presence hook (usePresence.ts);
- the Document Store version counter (declared in the SQL schema only,
  modelled from the spec where noted).
-/

namespace AutoDraft

/-! ## Document slice data model (store/slices/docSlice) -/

structure Section where
  id : String
  title : String
  content : String
deriving DecidableEq, Repr

structure Layout where
  i : String
  x : Int
  y : Int
  w : Int
  h : Int
  minW : Option Int
  maxW : Option Int
deriving DecidableEq, Repr

inductive Severity where
  | info
  | warning
  | error
deriving DecidableEq, Repr

structure ComplianceMark where
  sectionId : String
  start : Nat
  «end» : Nat
  message : String
  severity : Severity
deriving DecidableEq, Repr

structure Deadline where
  id : String
  title : String
  date : String
  completed : Bool
deriving DecidableEq, Repr

structure DocState where
  docId : Option String
  sections : List (String × Section)
  layout : List Layout
  activeSectionId : Option String
  complianceMarks : List ComplianceMark
  deadlines : List Deadline
  isLoading : Bool
  error : Option String
deriving DecidableEq, Repr

def initialState : DocState :=
  { docId := none
    sections := []
    layout := []
    activeSectionId := none
    complianceMarks := []
    deadlines := []
    isLoading := false
    error := none }

/-- JavaScript object property assignment m[k] = v on a Record modelled as an
insertion-ordered association list: an existing key keeps its position and gets
the new value, a fresh key is appended at the end. -/
def setRecord (m : List (String × Section)) (k : String) (v : Section) :
    List (String × Section) :=
  if m.any (fun p => p.1 = k) then
    m.map (fun p => if p.1 = k then (k, v) else p)
  else
    m ++ [(k, v)]

/-- Reducer updateSection: state.sections[action.payload.id] = action.payload. -/
def updateSection (st : DocState) (payload : Section) : DocState :=
  { st with sections := setRecord st.sections payload.id payload }

/-- Reducer setDocId. -/
def setDocId (st : DocState) (payload : String) : DocState :=
  { st with docId := some payload }

/-- Reducer setSections. -/
def setSections (st : DocState) (payload : List (String × Section)) : DocState :=
  { st with sections := payload }

/-- Reducer setLayout. -/
def setLayout (st : DocState) (payload : List Layout) : DocState :=
  { st with layout := payload }

/-- Reducer setActiveSection. -/
def setActiveSection (st : DocState) (payload : String) : DocState :=
  { st with activeSectionId := some payload }

/-- Reducer setComplianceMarks. -/
def setComplianceMarks (st : DocState) (payload : List ComplianceMark) : DocState :=
  { st with complianceMarks := payload }

/-- Reducer setDeadlines. -/
def setDeadlines (st : DocState) (payload : List Deadline) : DocState :=
  { st with deadlines := payload }

/-- findIndex followed by an in-place completed update: the first deadline whose
id matches gets the new completed flag, everything else is untouched; when no
id matches (findIndex returns -1) the list is returned unchanged. -/
def updateDeadlineList : List Deadline → String → Bool → List Deadline
  | [], _, _ => []
  | d :: ds, pid, pc =>
    if d.id = pid then { d with completed := pc } :: ds
    else d :: updateDeadlineList ds pid pc

/-- Reducer updateDeadline. -/
def updateDeadline (st : DocState) (pid : String) (pcompleted : Bool) : DocState :=
  { st with deadlines := updateDeadlineList st.deadlines pid pcompleted }

/-! ## Offline queue (hooks/useOfflineQueue.ts)

The Dexie table offlineEdits holds records with an auto-incremented numeric
primary key id and fields url, method, data, timestamp, synced. The data field
is typed any in the source; it is modelled opaquely by its JSON serialization.
The database state is modelled as the list of records in primary-key
(insertion) order, which is the order both toArray and the auto-increment key
produce. -/

structure OfflineEdit where
  id : Nat
  url : String
  method : String
  data : String
  timestamp : Nat
  synced : Bool
deriving DecidableEq, Repr

/-- Outcome of one fetch of a queued edit: the response was ok, the response
was received but not ok, or fetch threw (transport failure, caught by the
inner try block). -/
inductive FetchOutcome where
  | ok
  | notOk
  | throws
deriving DecidableEq, Repr

/-- Dexie auto-increment key generator: one above every key used so far. -/
def nextId (q : List OfflineEdit) : Nat :=
  (q.foldr (fun e m => max e.id m) 0) + 1

/-- addToQueue(url, method, data): db.offlineEdits.add with synced false and
timestamp Date.now(). -/
def addToQueue (q : List OfflineEdit) (url method data : String) (now : Nat) :
    List OfflineEdit :=
  q ++ [{ id := nextId q, url := url, method := method, data := data,
          timestamp := now, synced := false }]

/-- db.offlineEdits.update(i, with synced true): updates only the synced flag
of the record whose primary key is i. -/
def markSynced (q : List OfflineEdit) (i : Nat) : List OfflineEdit :=
  q.map (fun e => if e.id = i then { e with synced := true } else e)

/-- The for-loop of syncOfflineEdits over the snapshot list es of unsynced
edits: each entry is fetched in order; on an ok response the record is marked
synced in the database; a non-ok response or a thrown fetch (caught) leaves the
database unchanged and the loop continues with the next entry. Returns the
list of edits for which a fetch was issued, in issue order, and the final
database state. -/
def flushLoop (net : OfflineEdit → FetchOutcome) :
    List OfflineEdit → List OfflineEdit → List OfflineEdit × List OfflineEdit
  | [], q => ([], q)
  | e :: es, q =>
    let q1 := match net e with
      | FetchOutcome.ok => markSynced q e.id
      | FetchOutcome.notOk => q
      | FetchOutcome.throws => q
    let r := flushLoop net es q1
    (e :: r.1, r.2)

/-- syncOfflineEdits: returns immediately when isSyncing is already set;
otherwise reads the snapshot db.offlineEdits.where synced equals false
(records in primary-key order) and runs the send loop over it. -/
def syncOfflineEdits (isSyncing : Bool) (net : OfflineEdit → FetchOutcome)
    (q : List OfflineEdit) : List OfflineEdit × List OfflineEdit :=
  if isSyncing then ([], q)
  else flushLoop net (q.filter (fun e => !e.synced)) q

/-- Closed form of the database effect of the send loop on one record: it is
marked synced exactly when some attempted edit with its primary key got an ok
response, and nothing else about it changes. -/
def ackNet (net : OfflineEdit → FetchOutcome) (es : List OfflineEdit)
    (r : OfflineEdit) : OfflineEdit :=
  if es.any (fun e => net e = FetchOutcome.ok ∧ e.id = r.id) then
    { r with synced := true }
  else r

/-- A concrete queued edit, used as witness input. -/
def qOneEdit : OfflineEdit :=
  { id := 1, url := "/doc/d1", method := "PUT", data := "payload",
    timestamp := 0, synced := false }

/-- A concrete one-record queue, used as witness input. -/
def qOne : List OfflineEdit :=
  [qOneEdit]

/-- A transport on which every fetch gets an ok response. -/
def netAllOk : OfflineEdit → FetchOutcome :=
  fun _ => FetchOutcome.ok

/-- A transport on which every fetch throws. -/
def netAllThrows : OfflineEdit → FetchOutcome :=
  fun _ => FetchOutcome.throws

/-! ## Dexie schema of the durable store (class OfflineDB) -/

structure DexieTableSchema where
  tableName : String
  primaryKey : String
  autoIncrement : Bool
  indexes : List String
deriving DecidableEq, Repr

/-- Embedded from the OfflineDB constructor: the stores argument maps
offlineEdits to the schema string listing the auto-incremented primary key id
followed by the indexed fields url, method, timestamp, synced. -/
def offlineEditsSchema : DexieTableSchema :=
  { tableName := "offlineEdits"
    primaryKey := "id"
    autoIncrement := true
    indexes := ["url", "method", "timestamp", "synced"] }

/-- The field names of the offlineEdits record type in the source. -/
def offlineEditFields : List String :=
  ["id", "url", "method", "data", "timestamp", "synced"]

/-- Schema following the words of the spec, for refinement comparison with
offlineEditsSchema: a table of OfflineEditRecord keyed by opId and indexed by
synced and enqueuedAt. -/
def specOfflineEditsSchema : DexieTableSchema :=
  { tableName := "offlineEdits"
    primaryKey := "opId"
    autoIncrement := false
    indexes := ["synced", "enqueuedAt"] }

/-- Field names following the words of the spec, for refinement comparison
with offlineEditFields. -/
def specOfflineEditFields : List String :=
  ["opId", "targetEntity", "operationPayload", "enqueuedAt", "synced"]

/-! ## Server-sent-event subscription (hooks/useEventSource.ts)

The message listener parses event.data with JSON.parse inside a try block; on
success the parsed value is appended to the accumulated data list, on a parse
exception the handler only logs and returns, touching neither the data list
nor the connection state. JSON.parse is a host primitive, so the handler is
parameterized by the parse function; a parse exception is its none result. -/

structure EventStreamState (α : Type) where
  data : List α
  isConnected : Bool
deriving DecidableEq, Repr

/-- The message-event listener installed by startEventSource. -/
def handleMessage {α : Type} (parse : String → Option α)
    (st : EventStreamState α) (eventData : String) : EventStreamState α :=
  match parse eventData with
  | some v => { st with data := st.data ++ [v] }
  | none => st

/-! ## Presence (hooks/usePresence.ts) -/

structure Cursor where
  x : Int
  y : Int
deriving DecidableEq, Repr

structure PresenceUser where
  id : String
  name : String
  color : String
  cursor : Option Cursor
deriving DecidableEq, Repr

structure AuthUser where
  id : String
  name : String
deriving DecidableEq, Repr

/-- The hard-coded mockUsers array built by the usePresence effect. -/
def mockUsers (user : AuthUser) : List PresenceUser :=
  [ { id := user.id, name := user.name, color := "#0070f3", cursor := none },
    { id := "user2", name := "Jane Doe", color := "#ff0000",
      cursor := some { x := 100, y := 200 } },
    { id := "user3", name := "John Smith", color := "#00ff00",
      cursor := some { x := 300, y := 400 } } ]

/-- The users list exposed by usePresence: the effect returns early when user
or docId is missing (leaving the initial empty list), otherwise it stores the
mock list. The source records no heartbeat timestamps and runs no pruning, so
the result depends on nothing but the user and the docId. -/
def usePresenceUsers (user : Option AuthUser) (docId : String) :
    List PresenceUser :=
  match user with
  | none => []
  | some u => if docId = "" then [] else mockUsers u

/-! ## Document Store version counter -/

inductive OpKind where
  | insert (text : String)
  | delete (len : Nat)
  | format (style : String)
deriving DecidableEq, Repr

structure Operation where
  opId : String
  sectionId : String
  position : Nat
  kind : OpKind
  originClientId : String
  originTimestamp : Nat
  causalVersion : Nat
deriving DecidableEq, Repr

/-- Modelled from the spec: the Document Store record of the documents table.
Only its SQL declaration (documents.current_version INT DEFAULT 0) and the
design entry for the collaboration websocket exist in the repository; the
server-side processing code is absent from the source tree. -/
structure StoredDocument where
  id : String
  title : String
  currentVersion : Nat
  sections : List (String × String)
deriving DecidableEq, Repr

/-- Modelled from the spec: effect of one Operation kind on section content. -/
def applyOpKind (content : String) (pos : Nat) (k : OpKind) : String :=
  match k with
  | OpKind.insert text =>
    String.mk (content.toList.take pos ++ text.toList ++ content.toList.drop pos)
  | OpKind.delete len =>
    String.mk (content.toList.take pos ++ content.toList.drop (pos + len))
  | OpKind.format _ => content

/-- Modelled from the spec: the Document Store accepts an Operation by applying
it to the targeted section and incrementing currentVersion by one. -/
def acceptOperation (d : StoredDocument) (op : Operation) : StoredDocument :=
  { d with
    sections := d.sections.map (fun s =>
      if s.1 = op.sectionId then (s.1, applyOpKind s.2 op.position op.kind) else s)
    currentVersion := d.currentVersion + 1 }

/-- Modelled from the spec: processing a batch of accepted Operations in the
order assigned by the per-document serializer. -/
def processOperations (d : StoredDocument) (ops : List Operation) : StoredDocument :=
  ops.foldl acceptOperation d

/-! ## Helper lemmas -/

theorem setRecord_absorb (m : List (String × Section)) (k : String) (v w : Section) :
    setRecord (setRecord m k v) k w = setRecord m k w := by
  by_cases h : m.any (fun p => p.1 = k)
  · have hmem : (m.map (fun p => if p.1 = k then (k, v) else p)).any (fun p => p.1 = k) := by
      simp only [List.any_eq_true, decide_eq_true_eq] at h ⊢
      obtain ⟨p, hp, hpk⟩ := h
      refine ⟨(k, v), ?_, rfl⟩
      have := List.mem_map_of_mem (fun p => if p.1 = k then (k, v) else p) hp
      simpa [hpk] using this
    simp only [setRecord, h, if_true, hmem, List.map_map]
    apply List.map_congr_left
    intro p _
    by_cases hpk : p.1 = k <;> simp [hpk, Function.comp]
  · have hmem : ((m ++ [(k, v)]).any (fun p => p.1 = k)) := by
      simp
    simp only [setRecord, h, if_false, hmem, if_true, List.map_append]
    have hid : m.map (fun p => if p.1 = k then (k, w) else p) = m := by
      conv_rhs => rw [show m = m.map id from (List.map_id m).symm]
      apply List.map_congr_left
      intro p hp
      have hne : ¬ p.1 = k := by
        simp only [List.any_eq_true, decide_eq_true_eq] at h
        exact fun hc => h ⟨p, hp, hc⟩
      simp [hne]
    simp [hid]

theorem ackNet_nil (net : OfflineEdit → FetchOutcome) (r : OfflineEdit) :
    ackNet net [] r = r := by
  simp [ackNet]

theorem ackNet_cons (net : OfflineEdit → FetchOutcome) (e : OfflineEdit)
    (es : List OfflineEdit) (r : OfflineEdit) :
    ackNet net (e :: es) r =
      ackNet net es (if net e = FetchOutcome.ok then
        (if e.id = r.id then { r with synced := true } else r) else r) := by
  by_cases h1 : net e = FetchOutcome.ok
  · by_cases h2 : e.id = r.id
    · simp [ackNet, h1, h2]
    · simp [ackNet, h1, h2]
  · simp [ackNet, h1]

/-- The send loop attempts exactly the snapshot list, in order, and its
database effect is ackNet applied pointwise. -/
theorem flushLoop_eq (net : OfflineEdit → FetchOutcome) (es q : List OfflineEdit) :
    flushLoop net es q = (es, q.map (ackNet net es)) := by
  induction es generalizing q with
  | nil =>
    have hid : q.map (ackNet net []) = q := by
      conv_rhs => rw [show q = q.map id from (List.map_id q).symm]
      exact List.map_congr_left (fun r _ => ackNet_nil net r)
    simp [flushLoop, hid]
  | cons e es ih =>
    cases hne : net e with
    | ok =>
      have hmap : (markSynced q e.id).map (ackNet net es) = q.map (ackNet net (e :: es)) := by
        unfold markSynced
        rw [List.map_map]
        apply List.map_congr_left
        intro r _
        simp only [Function.comp, ackNet_cons, hne, if_true]
        by_cases h2 : r.id = e.id
        · rw [if_pos h2, if_pos h2.symm]
        · rw [if_neg h2, if_neg (fun h => h2 h.symm)]
      simp only [flushLoop, hne, ih, hmap]
    | notOk =>
      have hmap : q.map (ackNet net es) = q.map (ackNet net (e :: es)) := by
        apply List.map_congr_left
        intro r _
        rw [ackNet_cons, hne]
        simp
      simp only [flushLoop, hne, ih, hmap]
    | throws =>
      have hmap : q.map (ackNet net es) = q.map (ackNet net (e :: es)) := by
        apply List.map_congr_left
        intro r _
        rw [ackNet_cons, hne]
        simp
      simp only [flushLoop, hne, ih, hmap]

theorem ackNet_id (net : OfflineEdit → FetchOutcome) (es : List OfflineEdit)
    (r : OfflineEdit) : (ackNet net es r).id = r.id := by
  unfold ackNet
  split <;> rfl

theorem processOperations_version (d : StoredDocument) (ops : List Operation) :
    (processOperations d ops).currentVersion = d.currentVersion + ops.length := by
  induction ops generalizing d with
  | nil => simp [processOperations]
  | cons op ops ih =>
    simp only [processOperations, List.foldl_cons, List.length_cons] at *
    rw [ih]
    simp [acceptOperation]
    omega

/-! ## Further helper lemmas -/

theorem updateDeadlineList_noop (l : List Deadline) (pid : String) (pc : Bool)
    (h : ∀ d, d ∈ l → d.id ≠ pid) : updateDeadlineList l pid pc = l := by
  induction l with
  | nil => rfl
  | cons d ds ih =>
    unfold updateDeadlineList
    rw [if_neg (h d (List.mem_cons_self d ds))]
    rw [ih (fun x hx => h x (List.mem_cons_of_mem d hx))]

theorem syncOfflineEdits_requests (net : OfflineEdit → FetchOutcome)
    (q : List OfflineEdit) :
    (syncOfflineEdits false net q).1 = q.filter (fun e => !e.synced) := by
  simp [syncOfflineEdits, flushLoop_eq]

theorem syncOfflineEdits_db (net : OfflineEdit → FetchOutcome)
    (q : List OfflineEdit) :
    (syncOfflineEdits false net q).2 =
      q.map (ackNet net (q.filter (fun e => !e.synced))) := by
  simp [syncOfflineEdits, flushLoop_eq]

/-! ## Claim theorems -/

/-- C1 counterexample: applying two section-update operations that target the
same section to two replicas in opposite orders does not yield identical
section content: the reducer is last-writer-wins, so the replica that applied
the content-A update last differs from the replica that applied the content-B
update last. -/
theorem updateSection_order_dependent :
    (updateSection (updateSection initialState
        { id := "s1", title := "Intro", content := "A" })
        { id := "s1", title := "Intro", content := "B" }).sections ≠
    (updateSection (updateSection initialState
        { id := "s1", title := "Intro", content := "B" })
        { id := "s1", title := "Intro", content := "A" }).sections := by
  decide

/-- C1 amended: section updates targeting the same section are last-writer-
wins rather than order-independent: after applying two same-section updates in
sequence, the state is exactly the state produced by the second update alone,
so the two application orders agree only when the two payloads coincide. -/
theorem updateSection_last_writer_wins (st : DocState) (a b : Section)
    (h : a.id = b.id) :
    updateSection (updateSection st a) b = updateSection st b := by
  have hs : setRecord (setRecord st.sections a.id a) b.id b =
      setRecord st.sections b.id b := by
    rw [h]
    exact setRecord_absorb st.sections b.id a b
  simp [updateSection, hs]

/-- Witness for the amended C1 theorem at a concrete state and payloads. -/
theorem updateSection_last_writer_wins_witness :
    updateSection (updateSection initialState
      { id := "s1", title := "Intro", content := "A" })
      { id := "s1", title := "Other", content := "B" } =
    updateSection initialState { id := "s1", title := "Other", content := "B" } :=
  updateSection_last_writer_wins initialState
    { id := "s1", title := "Intro", content := "A" }
    { id := "s1", title := "Other", content := "B" } rfl

/-- C2: a flush of the offline queue issues its requests for exactly the
queued records whose synced flag is false, in their queue (enqueue) order; the
request sequence is a sublist of the queue, and it is the same whatever
outcomes the transport produces, so a transport failure on one entry never
changes the relative order in which the remaining entries are sent. -/
theorem syncOfflineEdits_enqueue_order (net : OfflineEdit → FetchOutcome)
    (q : List OfflineEdit) :
    (syncOfflineEdits false net q).1 = q.filter (fun e => !e.synced) ∧
    List.Sublist ((syncOfflineEdits false net q).1) q ∧
    ∀ net2, (syncOfflineEdits false net2 q).1 = (syncOfflineEdits false net q).1 := by
  refine ⟨syncOfflineEdits_requests net q, ?_, ?_⟩
  · rw [syncOfflineEdits_requests]
    exact List.filter_sublist q
  · intro net2
    rw [syncOfflineEdits_requests, syncOfflineEdits_requests]

/-- C3: the Document Store version counter (modelled from the spec, since only
its SQL declaration exists in the source tree) never decreases and, after
processing N accepted Operations, equals the version before processing plus N,
increasing strictly at every accepted Operation. -/
theorem currentVersion_monotonic (d : StoredDocument) (ops : List Operation) :
    (processOperations d ops).currentVersion = d.currentVersion + ops.length ∧
    (∀ i j : Nat, i ≤ j →
      (processOperations d (ops.take i)).currentVersion ≤
        (processOperations d (ops.take j)).currentVersion) ∧
    (∀ i : Nat, i < ops.length →
      (processOperations d (ops.take i)).currentVersion <
        (processOperations d (ops.take (i + 1))).currentVersion) := by
  refine ⟨processOperations_version d ops, ?_, ?_⟩
  · intro i j hij
    rw [processOperations_version, processOperations_version,
      List.length_take, List.length_take]
    omega
  · intro i hi
    rw [processOperations_version, processOperations_version,
      List.length_take, List.length_take]
    omega

/-- Witness for C3 at a concrete document and a one-operation batch. -/
theorem currentVersion_monotonic_witness :
    (processOperations
        { id := "d1", title := "Grant", currentVersion := 0,
          sections := [("s1", "hello")] }
        [{ opId := "o1", sectionId := "s1", position := 0,
           kind := OpKind.insert "A", originClientId := "c1",
           originTimestamp := 0, causalVersion := 0 }]).currentVersion = 1 ∧
    (processOperations
        { id := "d1", title := "Grant", currentVersion := 0,
          sections := [("s1", "hello")] }
        ([{ opId := "o1", sectionId := "s1", position := 0,
            kind := OpKind.insert "A", originClientId := "c1",
            originTimestamp := 0, causalVersion := 0 }].take 0)).currentVersion <
      (processOperations
        { id := "d1", title := "Grant", currentVersion := 0,
          sections := [("s1", "hello")] }
        ([{ opId := "o1", sectionId := "s1", position := 0,
            kind := OpKind.insert "A", originClientId := "c1",
            originTimestamp := 0, causalVersion := 0 }].take (0 + 1))).currentVersion := by
  have h := currentVersion_monotonic
    { id := "d1", title := "Grant", currentVersion := 0,
      sections := [("s1", "hello")] }
    [{ opId := "o1", sectionId := "s1", position := 0,
       kind := OpKind.insert "A", originClientId := "c1",
       originTimestamp := 0, causalVersion := 0 }]
  exact ⟨h.1, h.2.2 0 (by decide)⟩

/-- C4: evaluation of the presence code at the failing input. The usePresence
hook stores a hard-coded mock list; a PresenceUser carries no lastHeartbeat
field and nothing ever prunes the list, so the entry user2 (which never sends
a heartbeat) is returned no matter how much time has passed, contradicting the
claimed expiry of stale entries. -/
theorem usePresence_users_constant_mock :
    (usePresenceUsers (some { id := "u1", name := "Alice" }) "d1").map
        (fun u => u.id) = ["u1", "user2", "user3"] ∧
    usePresenceUsers (some { id := "u1", name := "Alice" }) "d1" =
      mockUsers { id := "u1", name := "Alice" } := by
  constructor
  · decide
  · decide

/-- C5: a flush sends exactly the records that are unsynced when it starts, so
a record already marked synced is never resent; and once a sent record is
acknowledged ok, it is marked synced in the store, so no request of any later
flush carries its key. -/
theorem syncOfflineEdits_no_resend (net : OfflineEdit → FetchOutcome)
    (q : List OfflineEdit) (hids : (q.map (fun e => e.id)).Nodup) :
    (syncOfflineEdits false net q).1 = q.filter (fun e => !e.synced) ∧
    (∀ e, e ∈ q → e.synced = true → e ∉ (syncOfflineEdits false net q).1) ∧
    (∀ e, e ∈ q → e.synced = false → net e = FetchOutcome.ok →
      ∀ net2 r,
        r ∈ (syncOfflineEdits false net2 (syncOfflineEdits false net q).2).1 →
        r.id ≠ e.id) := by
  refine ⟨syncOfflineEdits_requests net q, ?_, ?_⟩
  · intro e _ hsy
    rw [syncOfflineEdits_requests]
    intro hmem
    have := (List.mem_filter.mp hmem).2
    simp [hsy] at this
  · intro e heq hsy hok net2 r hr hid
    rw [syncOfflineEdits_requests, syncOfflineEdits_db] at hr
    obtain ⟨hrmem, hrsy⟩ := List.mem_filter.mp hr
    obtain ⟨x, hx, hxr⟩ := List.mem_map.mp hrmem
    have hxid : x.id = e.id := by rw [← hid, ← hxr, ackNet_id]
    have hxe : x = e := List.inj_on_of_nodup_map hids hx heq hxid
    subst hxe
    have hees : x ∈ q.filter (fun e => !e.synced) :=
      List.mem_filter.mpr ⟨heq, by simp [hsy]⟩
    have hackx : ackNet net (q.filter (fun e => !e.synced)) x =
        { x with synced := true } := by
      unfold ackNet
      rw [if_pos]
      simp only [List.any_eq_true, decide_eq_true_eq]
      exact ⟨x, hees, hok, rfl⟩
    rw [hackx] at hxr
    rw [← hxr] at hrsy
    simp at hrsy

/-- Witness for C5 at a concrete one-record queue whose send succeeds. -/
theorem syncOfflineEdits_no_resend_witness :
    ((qOne.map (fun e => e.id)).Nodup) ∧
    (syncOfflineEdits false netAllOk qOne).1 = qOne.filter (fun e => !e.synced) :=
  ⟨by decide, (syncOfflineEdits_no_resend netAllOk qOne (by decide)).1⟩

/-- C6: an entry whose send throws is skipped (it stays in the store unchanged
and unsynced) and does not block the rest of the flush: every unsynced entry
is still attempted, in queue order, and the flush is a total function, so it
completes without raising. -/
theorem syncOfflineEdits_throw_skipped (net : OfflineEdit → FetchOutcome)
    (q : List OfflineEdit) (e : OfflineEdit)
    (hids : (q.map (fun x => x.id)).Nodup)
    (he : e ∈ q) (hu : e.synced = false) (ht : net e = FetchOutcome.throws) :
    e ∈ (syncOfflineEdits false net q).1 ∧
    (syncOfflineEdits false net q).1 = q.filter (fun x => !x.synced) ∧
    e ∈ (syncOfflineEdits false net q).2 := by
  refine ⟨?_, syncOfflineEdits_requests net q, ?_⟩
  · rw [syncOfflineEdits_requests]
    exact List.mem_filter.mpr ⟨he, by simp [hu]⟩
  · rw [syncOfflineEdits_db]
    have hack : ackNet net (q.filter (fun x => !x.synced)) e = e := by
      unfold ackNet
      rw [if_neg]
      simp only [List.any_eq_true, decide_eq_true_eq]
      rintro ⟨x, hx, hxok, hxid⟩
      have hxq : x ∈ q := List.mem_of_mem_filter hx
      have hxe : x = e := List.inj_on_of_nodup_map hids hxq he hxid
      rw [hxe, ht] at hxok
      exact FetchOutcome.noConfusion hxok
    rw [← hack]
    exact List.mem_map_of_mem _ he

/-- Witness for C6 at a concrete one-record queue whose send throws. -/
theorem syncOfflineEdits_throw_skipped_witness :
    qOneEdit ∈ (syncOfflineEdits false netAllThrows qOne).1 ∧
    (syncOfflineEdits false netAllThrows qOne).1 =
      qOne.filter (fun x => !x.synced) ∧
    qOneEdit ∈ (syncOfflineEdits false netAllThrows qOne).2 :=
  syncOfflineEdits_throw_skipped netAllThrows qOne qOneEdit
    (by decide) (by decide) rfl rfl

/-- C7: the queue operations never delete a record and never touch a payload:
addToQueue only appends a fresh record with synced false, and a flush keeps
the store pointwise aligned with its old contents, preserving id, url, method,
data and timestamp of every record and only ever turning the synced flag of an
acknowledged record to true (a record already synced stays synced). -/
theorem offlineQueue_frame (net : OfflineEdit → FetchOutcome)
    (q : List OfflineEdit) (url method data : String) (now : Nat) :
    addToQueue q url method data now =
      q ++ [{ id := nextId q, url := url, method := method, data := data,
              timestamp := now, synced := false }] ∧
    ((syncOfflineEdits false net q).2).length = q.length ∧
    List.Forall₂ (fun r rr : OfflineEdit =>
        rr.id = r.id ∧ rr.url = r.url ∧ rr.method = r.method ∧
        rr.data = r.data ∧ rr.timestamp = r.timestamp ∧
        (r.synced = true → rr.synced = true))
      q ((syncOfflineEdits false net q).2) := by
  refine ⟨rfl, ?_, ?_⟩
  · rw [syncOfflineEdits_db, List.length_map]
  · rw [syncOfflineEdits_db]
    rw [List.forall₂_map_right_iff, List.forall₂_same]
    intro x _
    unfold ackNet
    split
    · exact ⟨rfl, rfl, rfl, rfl, rfl, fun _ => rfl⟩
    · exact ⟨rfl, rfl, rfl, rfl, rfl, fun h => h⟩

/-- C8 counterexample: the durable store schema in the source does not match
the claimed one: its primary key is the auto-incremented id, not opId; it has
no enqueuedAt index; and its record field names differ from the claimed
OfflineEditRecord field names. -/
theorem offlineEdits_schema_ne_spec :
    offlineEditsSchema.primaryKey ≠ specOfflineEditsSchema.primaryKey ∧
    "enqueuedAt" ∉ offlineEditsSchema.indexes ∧
    "opId" ∉ offlineEditFields ∧
    offlineEditsSchema ≠ specOfflineEditsSchema ∧
    offlineEditFields ≠ specOfflineEditFields := by
  decide

/-- C8 amended: the client-side durable store holds one table offlineEdits of
records with fields id, url, method, data, timestamp, synced, keyed by the
auto-incremented numeric id, and indexed by url, method, timestamp and synced;
in particular the synced flag and the enqueue timestamp are indexed, but no
field is named opId, targetEntity, operationPayload or enqueuedAt. -/
theorem offlineEdits_schema_actual :
    offlineEditsSchema.tableName = "offlineEdits" ∧
    offlineEditsSchema.primaryKey = "id" ∧
    offlineEditsSchema.autoIncrement = true ∧
    "synced" ∈ offlineEditsSchema.indexes ∧
    "timestamp" ∈ offlineEditsSchema.indexes ∧
    offlineEditFields = ["id", "url", "method", "data", "timestamp", "synced"] := by
  decide

/-- C9: when an incoming server-sent event carries data that does not parse as
JSON, the message handler returns the state unchanged: the accumulated data
list, the connection flag, and everything else are untouched, and the handler
(a total function modelling the try-catch around JSON.parse) raises nothing. -/
theorem handleMessage_invalid_json_noop {α : Type} (parse : String → Option α)
    (st : EventStreamState α) (s : String) (h : parse s = none) :
    handleMessage parse st s = st ∧
    (handleMessage parse st s).data = st.data ∧
    (handleMessage parse st s).isConnected = st.isConnected := by
  have heq : handleMessage parse st s = st := by
    simp [handleMessage, h]
  exact ⟨heq, by rw [heq], by rw [heq]⟩

/-- Witness for C9 at a concrete state and an unparseable payload. -/
theorem handleMessage_invalid_json_noop_witness :
    (fun _ : String => (none : Option Nat)) "not json" = none ∧
    handleMessage (fun _ : String => (none : Option Nat))
      { data := [7], isConnected := true } "not json" =
      { data := [7], isConnected := true } :=
  ⟨rfl, (handleMessage_invalid_json_noop (fun _ : String => (none : Option Nat))
    { data := [7], isConnected := true } "not json" rfl).1⟩

/-- C10: dispatching updateDeadline with an id that matches no existing
deadline is a no-op: findIndex returns a miss, nothing is mutated, and the
whole document state — the deadlines list and every other field — is returned
unchanged, with no error and no insertion. -/
theorem updateDeadline_unknown_id_noop (st : DocState) (pid : String) (c : Bool)
    (h : ∀ d, d ∈ st.deadlines → d.id ≠ pid) :
    updateDeadline st pid c = st := by
  unfold updateDeadline
  rw [updateDeadlineList_noop st.deadlines pid c h]

/-- Witness for C10 at a concrete state holding one deadline with a different
id. -/
theorem updateDeadline_unknown_id_noop_witness :
    updateDeadline
      { initialState with deadlines :=
          [{ id := "dl1", title := "Submit", date := "2025-01-01",
             completed := false }] } "missing" true =
      { initialState with deadlines :=
          [{ id := "dl1", title := "Submit", date := "2025-01-01",
             completed := false }] } :=
  updateDeadline_unknown_id_noop
    { initialState with deadlines :=
        [{ id := "dl1", title := "Submit", date := "2025-01-01",
           completed := false }] } "missing" true (by decide)

end AutoDraft
